import Mathlib

/-!
Verification development for the `pseudo-analyzer` repository.

We shallowly embed the windowed annotation renderer of `src/psan/annotate.py`
(class `RecognizedTagFilter`, function `show_candidate`, static method
`_get_decisions`) and the offline feature extractor of
`src/ner-eval/feature_digger.py` (class `FeatureParser`).

Text content is embedded as `List Char`; machine integers of the source are
unbounded Python integers, embedded as `Int`.  SAX events are embedded as an
inductive type of input events; the filter becomes a step function
`FilterState → InEvent → Except String (FilterState × List OutEvent)` where
the `Except` layer models Python exceptions (the `IndexError` a list access
out of range raises, and the `AssertionError` of the `assert` statement in
`_startToken`).
-/

namespace PseudoAnalyzer

/-- Modelled from the spec: `psan.model.AnnotationDecision` (module `psan/model.py`
is not under `src/`).  §3 of the spec lists the decision vocabulary
`undecided | public | secret | rule-derived | subsumed-by-outer`; the code in
`annotate.py` compares stored decisions only against `PUBLIC.value` and
`SECRET.value`, every other stored value falls through to the neutral branch.
Absence of a table entry plays the role of `undecided`. -/
inductive AnnotationDecision where
  | public
  | secret
  | rule
  | nested
  deriving DecidableEq, Repr

/-- Python list subscript `l[i]`: negative indices count from the end, an
index out of range raises `IndexError`. -/
def pyIdx {α : Type} (l : List α) (i : Int) : Except String α :=
  let j : Int := if i < 0 then i + l.length else i
  if 0 ≤ j then
    match l.get? j.toNat with
    | some a => .ok a
    | none => .error "IndexError"
  else .error "IndexError"

/-- Python dict assignment `d[k] = v` on a dict embedded as an association
list in insertion order: replace in place when the key is present, else
append. -/
def dictSet (d : List (Int × AnnotationDecision)) (k : Int) (v : AnnotationDecision) :
    List (Int × AnnotationDecision) :=
  match d with
  | [] => [(k, v)]
  | (k', v') :: rest => if k' = k then (k', v) :: rest else (k', v') :: dictSet rest k v

/-- Python `d.get(k)` on a dict embedded as an association list. -/
def dictGet (d : List (Int × AnnotationDecision)) (k : Int) : Option AnnotationDecision :=
  match d with
  | [] => none
  | (k', v') :: rest => if k' = k then some v' else dictGet rest k

/-- In-place update of one list cell (the Python statement
`decisions[i][key] = v` mutates cell `i`); total because callers establish
the index is in range. -/
def listModify {α : Type} (l : List α) (i : Nat) (f : α → α) : List α :=
  match l, i with
  | [], _ => []
  | a :: rest, 0 => f a :: rest
  | a :: rest, n + 1 => a :: listModify rest n f

/-- The whitespace characters of Python `str.strip()`. -/
def isPySpace (c : Char) : Bool :=
  c = ' ' || c = '\t' || c = '\n' || c = '\r' || c = '\x0b' || c = '\x0c'

/-- Python `content.strip()` on text embedded as a character list. -/
def pyStrip (l : List Char) : List Char :=
  ((l.dropWhile isPySpace).reverse.dropWhile isPySpace).reverse

/-- Python `content.split("\n")`: split on every newline, keeping empty
pieces; the split of the empty string is `[""]`. -/
def pySplitNL : List Char → List (List Char)
  | [] => [[]]
  | c :: rest =>
    let r := pySplitNL rest
    if c = '\n' then [] :: r
    else
      match r with
      | [] => [[c]]
      | h :: t => (c :: h) :: t

/-- Input SAX events seen by `RecognizedTagFilter` (the tag vocabulary of the
recognized-submission XML: `sentence`, `token` with an `id` attribute, `ne`
with `start`/`end`/`type` attributes, plus arbitrary other tags). -/
inductive InEvent where
  | startSentence
  | startToken (id : Int)
  | startNe (start : Int) (end_ : Int) (type_ : String)
  | startOther (name : String)
  | chars (content : List Char)
  | endSentence
  | endToken
  | endNe
  | endOther (name : String)
  deriving DecidableEq, Repr

/-- Output SAX events the filter forwards to the `XMLGenerator`. -/
inductive OutEvent where
  | elemStart (name : String) (attrs : List (String × String))
  | elemEnd (name : String)
  | chars (content : List Char)
  deriving DecidableEq, Repr

/-- State of `RecognizedTagFilter` (`src/psan/annotate.py` lines 168-186).
The `_annotations` field is called `decisions` here, after the local name in
`_get_decisions`. -/
structure FilterState where
  window_start : Int
  window_end : Int
  in_window : Bool
  decisions : List (List (Int × AnnotationDecision))
  highlight_start : Int
  highlight_end : Int
  highlight_tokens : List (List Char)
  entity_type : Option String
  user_cadidate_end : Int
  token_id : Int
  nested_depth : Int
  last_sentence : Bool
  deriving DecidableEq, Repr

/-- `RecognizedTagFilter._get_decisions` (lines 188-200): one batch query for
rows with `window_start <= ref_start <= window_end` (the SQL WHERE clause is
the `if` filter below; `rows` arrive in the store's order), written into a
fresh table of `window_end - window_start + 1` empty dicts at index
`ref_start - window_start` under key `ref_end - ref_start`. -/
def getDecisions (rows : List (Int × Int × AnnotationDecision))
    (window_start window_end : Int) : List (List (Int × AnnotationDecision)) :=
  rows.foldl
    (fun table row =>
      if window_start ≤ row.1 ∧ row.1 ≤ window_end then
        listModify table (row.1 - window_start).toNat
          (fun slot => dictSet slot (row.2.1 - row.1) row.2.2)
      else table)
    (List.replicate (window_end - window_start + 1).toNat [])

/-- The `onClick` attribute value built in `_startCandidate` (line 214). -/
def onIntervalClickStr (a b : Int) : String :=
  "onTokenIntervalClick(event, " ++ toString a ++ ", " ++ toString b ++ ")"

/-- The `onClick` attribute value built in `_startToken` for a token that is
turned into a candidate (line 243; note the double space of the source). -/
def onTokenIntervalClickStr (a b : Int) : String :=
  "onTokenIntervalClick(event, " ++ toString a ++ ",  " ++ toString b ++ ")"

/-- The `onClick` attribute value for a plain token (line 246). -/
def onTokenClickStr (a : Int) : String :=
  "onTokenClick(event, " ++ toString a ++ ")"

/-- The scan of `_startToken` (lines 232-240) over the decision dict stored
for the current token: first `public`/`secret` entry wins (in insertion
order), yielding the replacement class string and the new
`user_cadidate_end` value `token_id + length`; other decisions are skipped. -/
def scanDecisions (tid : Int) : List (Int × AnnotationDecision) → Option (String × Int)
  | [] => none
  | (len, d) :: rest =>
    match d with
    | .public => some ("token candidate-public", tid + len)
    | .secret => some ("token candidate-secret", tid + len)
    | _ => scanDecisions tid rest

/-- Shared tail of `_startToken` (lines 241-248): choose the `onClick`
attribute, bump the depth when the token became a candidate, and emit the
`span` element. -/
def finishToken (s : FilterState) (cls : String) :
    Except String (FilterState × List OutEvent) :=
  if s.user_cadidate_end ≠ -1 then
    .ok ({ s with nested_depth := s.nested_depth + 1 },
      [.elemStart "span"
        [("class", cls), ("onClick", onTokenIntervalClickStr s.token_id s.user_cadidate_end)]])
  else
    .ok (s, [.elemStart "span" [("class", cls), ("onClick", onTokenClickStr s.token_id)]])

/-- `RecognizedTagFilter._startToken` (lines 223-248).  The `assert` on line
228 is modelled as an `AssertionError`; the decision-table subscript on line
232 follows Python list-index semantics. -/
def startTokenStep (s : FilterState) : Except String (FilterState × List OutEvent) :=
  if s.token_id = s.highlight_start then
    if s.user_cadidate_end ≠ -1 then .error "AssertionError"
    else finishToken { s with user_cadidate_end := s.highlight_end } "token highlight"
  else
    match pyIdx s.decisions (s.token_id - s.window_start) with
    | .error m => .error m
    | .ok slot =>
      match scanDecisions s.token_id slot with
      | some (cls, newEnd) => finishToken { s with user_cadidate_end := newEnd } cls
      | none => finishToken s "token"

/-- `RecognizedTagFilter._startCandidate` (lines 202-217). -/
def startCandidateStep (s : FilterState) (ref_start ref_end : Int) (is_highlighted : Bool) :
    Except String (FilterState × List OutEvent) :=
  match pyIdx s.decisions (ref_start - s.window_start) with
  | .error m => .error m
  | .ok slot =>
    let d := dictGet slot (ref_end - ref_start)
    let base : String :=
      match d with
      | some .public => "candidate candidate-public"
      | some .secret => "candidate candidate-secret"
      | _ => "candidate"
    let cls := if is_highlighted then base ++ " highlight" else base
    .ok ({ s with nested_depth := s.nested_depth + 1 },
      [.elemStart "span" [("class", cls), ("onClick", onIntervalClickStr ref_start ref_end)]])

/-- The emission loop of `characters` (lines 288-295): the first line is
forwarded bare, each further line is forwarded and then followed by a
`br/` element-start (the source emits the marker after the line). -/
def charsOut (content : List Char) : List OutEvent :=
  match pySplitNL content with
  | [] => []
  | l :: rest => OutEvent.chars l :: rest.flatMap (fun li => [OutEvent.chars li, OutEvent.elemStart "br/" []])

/-- First half of the in-window `endElement("token")` handler (lines
302-307): close the plain token span at depth 0, or the synthesized
candidate span when the current token id equals `user_cadidate_end`. -/
def endTokenPre (s : FilterState) : FilterState × List OutEvent :=
  if s.nested_depth = 0 then (s, [.elemEnd "span"])
  else if s.user_cadidate_end = s.token_id then
    ({ s with nested_depth := s.nested_depth - 1, user_cadidate_end := -1 }, [.elemEnd "span"])
  else (s, [])

/-- The in-window `endElement("token")` handler (lines 301-316): after
`endTokenPre`, when the token id equals `window_end`, force-close all
tracked open elements (`while depth > 0`), leave the window and open the
fade wrapper. -/
def endTokenStep (s : FilterState) : FilterState × List OutEvent :=
  let p := endTokenPre s
  let s1 := p.1
  if s1.token_id = s1.window_end then
    let nd := s1.nested_depth - max s1.nested_depth 0
    let forced := List.replicate (max s1.nested_depth 0).toNat (OutEvent.elemEnd "span")
    ({ s1 with nested_depth := nd, in_window := false, last_sentence := true },
      p.2 ++ forced ++ [.elemStart "span" [("class", "small fadeout")]])
  else (s1, p.2)

/-- One SAX callback of `RecognizedTagFilter` (`startElement` lines 250-277,
`characters` lines 279-295, `endElement` lines 297-319). -/
def stepFilter (s : FilterState) (e : InEvent) : Except String (FilterState × List OutEvent) :=
  match e with
  | .startSentence =>
    let w := decide (s.window_start ≤ s.token_id + 1 ∧ s.token_id + 1 ≤ s.window_end)
    .ok ({ s with in_window := w }, [])
  | .startToken id =>
    let s := { s with token_id := id }
    if s.in_window ∧ s.nested_depth = 0 then startTokenStep s
    else .ok (s, [])
  | .startNe start end_ type_ =>
    if s.in_window then
      let highlighted := decide (s.highlight_start ≤ start ∧ end_ ≤ s.highlight_end)
      let s :=
        if s.highlight_start = start ∧ end_ = s.highlight_end then
          { s with entity_type := some type_ }
        else s
      if s.nested_depth = 0 ∧ start = s.highlight_start ∧ end_ < s.highlight_end then
        match startTokenStep { s with token_id := start } with
        | .error m => .error m
        | .ok (s1, out1) =>
          match startCandidateStep s1 start end_ highlighted with
          | .error m => .error m
          | .ok (s2, out2) => .ok (s2, out1 ++ out2)
      else startCandidateStep s start end_ highlighted
    else .ok (s, [])
  | .startOther _ => .ok (s, [])
  | .chars content =>
    if s.in_window ∨ s.last_sentence then
      let s :=
        if s.highlight_start ≤ s.token_id ∧ s.token_id ≤ s.highlight_end then
          let text := pyStrip content
          if 0 < text.length then
            { s with highlight_tokens := s.highlight_tokens ++ [text] }
          else s
        else s
      .ok (s, charsOut content)
    else .ok (s, [])
  | .endNe =>
    if s.in_window then
      .ok ({ s with nested_depth := s.nested_depth - 1 }, [.elemEnd "span"])
    else .ok (s, [])
  | .endToken =>
    if s.in_window then .ok (endTokenStep s)
    else .ok (s, [])
  | .endSentence =>
    if s.in_window then .ok (s, [])
    else if s.last_sentence then
      .ok ({ s with last_sentence := false }, [.elemEnd "span"])
    else .ok (s, [])
  | .endOther _ => .ok (s, [])

/-- Run the filter over a whole event stream, concatenating the forwarded
output events (the single `sax.parse(filename, filter)` call of
`show_candidate`, line 81). -/
def runFilter (s : FilterState) : List InEvent → Except String (FilterState × List OutEvent)
  | [] => .ok (s, [])
  | e :: rest =>
    match stepFilter s e with
    | .error m => .error m
    | .ok (s', out) =>
      match runFilter s' rest with
      | .error m => .error m
      | .ok (s'', out') => .ok (s'', out ++ out')

/-- `RecognizedTagFilter.__init__` (lines 168-186): clamp `window_start` at 0,
fetch the decision table once, start outside the window with sentinel values
`user_cadidate_end = -1` and `token_id = -1`. -/
def initFilter (highlight_start highlight_end window_start window_end : Int)
    (rows : List (Int × Int × AnnotationDecision)) : FilterState :=
  let ws := max 0 window_start
  { window_start := ws
    window_end := window_end
    in_window := false
    decisions := getDecisions rows ws window_end
    highlight_start := highlight_start
    highlight_end := highlight_end
    highlight_tokens := []
    entity_type := none
    user_cadidate_end := -1
    token_id := -1
    nested_depth := 0
    last_sentence := false }

/-- The filter construction of `show_candidate` (line 78):
`RecognizedTagFilter(submission_id, ref_start, ref_end, ref_start - 100,
ref_start + 100, make_parser())` — the margin is the constant 100. -/
def showCandidateFilter (ref_start ref_end : Int)
    (rows : List (Int × Int × AnnotationDecision)) : FilterState :=
  initFilter ref_start ref_end (ref_start - 100) (ref_start + 100) rows

/-- Element-open events of the rendered output. -/
def isOpenEvent : OutEvent → Bool
  | .elemStart _ _ => true
  | _ => false

/-- Element-close events of the rendered output. -/
def isCloseEvent : OutEvent → Bool
  | .elemEnd _ => true
  | _ => false

def countOpens (out : List OutEvent) : Nat := (out.filter isOpenEvent).length

def countCloses (out : List OutEvent) : Nat := (out.filter isCloseEvent).length

/-- Size of one output event: one markup unit per element event, one unit per
text character. -/
def outEventSize : OutEvent → Nat
  | .chars c => c.length
  | _ => 1

/-- Size of the rendered fragment. -/
def outSize (out : List OutEvent) : Nat := (out.map outEventSize).sum

/-- The literal text content of an input stream, in document order; character
offsets index into this list. -/
def docChars (evs : List InEvent) : List Char :=
  evs.flatMap fun e =>
    match e with
    | .chars c => c
    | _ => []

/-- The ids carried by the `token` start events of an input stream. -/
def docTokenIds (evs : List InEvent) : List Int :=
  evs.filterMap fun e =>
    match e with
    | .startToken id => some id
    | _ => none

/-- Tag-matching check of an input stream: every element end matches the
most recent open element, and everything opened is closed (XML
well-formedness of the event sequence). -/
def wfAux : List String → List InEvent → Bool
  | stk, [] => stk.isEmpty
  | stk, .startSentence :: r => wfAux ("sentence" :: stk) r
  | stk, .startToken _ :: r => wfAux ("token" :: stk) r
  | stk, .startNe _ _ _ :: r => wfAux ("ne" :: stk) r
  | stk, .startOther n :: r => wfAux (n :: stk) r
  | stk, .chars _ :: r => wfAux stk r
  | stk, .endSentence :: r =>
    match stk with
    | top :: stk' => top = "sentence" && wfAux stk' r
    | [] => false
  | stk, .endToken :: r =>
    match stk with
    | top :: stk' => top = "token" && wfAux stk' r
    | [] => false
  | stk, .endNe :: r =>
    match stk with
    | top :: stk' => top = "ne" && wfAux stk' r
    | [] => false
  | stk, .endOther n :: r =>
    match stk with
    | top :: stk' => top = n && wfAux stk' r
    | [] => false

def wellFormedD (evs : List InEvent) : Bool := wfAux [] evs

/-- The output fragment of a successful render, `none` when the render
raised. -/
def runOut (s : FilterState) (evs : List InEvent) : Option (List OutEvent) :=
  match runFilter s evs with
  | .ok (_, out) => some out
  | .error _ => none

/-- The exception message of a failed render, `none` on success. -/
def runErr (s : FilterState) (evs : List InEvent) : Option String :=
  match runFilter s evs with
  | .ok _ => none
  | .error m => some m

/-- The Highlight Collector's fragments after a successful render. -/
def runHighlights (s : FilterState) (evs : List InEvent) : Option (List (List Char)) :=
  match runFilter s evs with
  | .ok (s', _) => some s'.highlight_tokens
  | .error _ => none

/-- Open/close counts of a successful render. -/
def runOpenClose (s : FilterState) (evs : List InEvent) : Option (Nat × Nat) :=
  (runOut s evs).map fun o => (countOpens o, countCloses o)

/-!  Offline feature extractor, `src/ner-eval/feature_digger.py`. -/

/-- Input SAX events of the feature extractor: a `ne` element carries a
`status` attribute (`None` when absent) and an `anonymizedlabel` attribute. -/
inductive FInEvent where
  | startNe (status : Option (List Char)) (label : Option (List Char))
  | startOther (tag : String)
  | chars (content : List Char)
  | endNe
  | endOther (tag : String)
  deriving DecidableEq, Repr

/-- State of `FeatureParser` (lines 11-38); the two callbacks accumulate into
`features` and `txt`.  Source field names kept, including the `possition`
spelling. -/
structure FeatureState where
  possition : Nat
  current : Option (Nat × Option (List Char))
  features : List (Nat × Nat × Option (List Char))
  txt : List Char
  deriving DecidableEq, Repr

/-- Python `status.startswith("confirmed")`. -/
def pyStartswithConfirmed (status : List Char) : Bool :=
  List.isPrefixOf "confirmed".data status

/-- One SAX callback of `FeatureParser` (`startElement` lines 21-28,
`characters` lines 30-32, `endElement` lines 34-38).  A missing `status`
attribute on a `ne` element makes `status.startswith` raise
(`AttributeError` on `None`). -/
def featureStep (s : FeatureState) (e : FInEvent) : Except String FeatureState :=
  match e with
  | .startNe status label =>
    match status with
    | none => .error "AttributeError"
    | some st =>
      if pyStartswithConfirmed st then
        .ok { s with current := some (s.possition, label) }
      else .ok s
  | .startOther _ => .ok s
  | .chars content =>
    .ok { s with possition := s.possition + content.length, txt := s.txt ++ content }
  | .endNe =>
    match s.current with
    | some cur =>
      if s.possition > cur.1 then
        .ok { s with features := s.features ++ [(cur.1, s.possition, cur.2)], current := none }
      else .ok s
    | none => .ok s
  | .endOther _ => .ok s

/-- `FeatureParser.__init__` (lines 14-19). -/
def initFeature : FeatureState :=
  { possition := 0, current := none, features := [], txt := [] }

/-- Run the feature extractor over a whole event stream (the single
`parser.parse(input_file)` call, line 75). -/
def runFeature (s : FeatureState) : List FInEvent → Except String FeatureState
  | [] => .ok s
  | e :: rest =>
    match featureStep s e with
    | .error m => .error m
    | .ok s' => runFeature s' rest

/-- A flat (non-nested) offset-tagged document for the feature extractor:
plain text, interleaved with `ne` elements that enclose only text. -/
inductive FSeg where
  | text (c : List Char)
  | ne (status : List Char) (label : Option (List Char)) (content : List Char)
  deriving DecidableEq, Repr

/-- Event stream of a flat document. -/
def flattenF : List FSeg → List FInEvent
  | [] => []
  | .text c :: rest => FInEvent.chars c :: flattenF rest
  | .ne st lb c :: rest =>
    FInEvent.startNe (some st) lb :: FInEvent.chars c :: FInEvent.endNe :: flattenF rest

/-- Length of a flat segment's text. -/
def fsegLen : FSeg → Nat
  | .text c => c.length
  | .ne _ _ c => c.length

/-- Modelled from the spec: the `(start, end, label)` table the offline
companion interface promises — one row per confirmed candidate element, with
`start`/`end` the character offsets of its content in the plain-text
stream. -/
def fTableSpec (off : Nat) : List FSeg → List (Nat × Nat × Option (List Char))
  | [] => []
  | .text c :: rest => fTableSpec (off + c.length) rest
  | .ne st lb c :: rest =>
    (if pyStartswithConfirmed st then [(off, off + c.length, lb)] else []) ++
      fTableSpec (off + c.length) rest

/-- The plain-text stream of a flat document. -/
def fTextSpec : List FSeg → List Char
  | [] => []
  | .text c :: rest => c ++ fTextSpec rest
  | .ne _ _ c :: rest => c ++ fTextSpec rest

/-!  Concrete documents and states used by counterexamples and witnesses. -/

/-- Output of a successful `stepFilter` call, `none` when it raised. -/
def stepOut (s : FilterState) (e : InEvent) : Option (List OutEvent) :=
  match stepFilter s e with
  | .ok (_, out) => some out
  | .error _ => none

/-- Total document text length. -/
def docLen (evs : List InEvent) : Nat := (docChars evs).length

/-- One sentence, two tokens `Anna`/`visited` at ids 0 and 5. -/
def c2doc : List InEvent :=
  [.startSentence, .startToken 0, .chars "Anna".data, .endToken,
   .startToken 5, .chars "visited".data, .endToken, .endSentence]

/-- One sentence holding a single token at id 0 whose text is `n` copies of
`a`: a well-formed document of unbounded length whose single token lies in
the window. -/
def c3doc (n : Nat) : List InEvent :=
  [.startSentence, .startToken 0, .chars (List.replicate n 'a'), .endToken, .endSentence]

/-- Output size of the render of `c3doc n` (0 if the render raised). -/
def c3outSizeN (n : Nat) : Nat :=
  ((runOut (showCandidateFilter 100 100 []) (c3doc n)).map outSize).getD 0

/-- A state outside the window and outside the fade tail. -/
def c3ws : FilterState :=
  { window_start := 0, window_end := 100, in_window := false, decisions := []
    highlight_start := 3, highlight_end := 7, highlight_tokens := [], entity_type := none
    user_cadidate_end := -1, token_id := 600, nested_depth := 0, last_sentence := false }

/-- `Anna visit`: tokens at ids 0 and 5, with the separating space as
sentence-level text between them. -/
def c4doc : List InEvent :=
  [.startSentence, .startToken 0, .chars "Anna".data, .endToken,
   .chars " ".data, .startToken 5, .chars "visit".data, .endToken, .endSentence]

/-- One sentence, one token at id 0 — id 50 never occurs. -/
def c5doc : List InEvent :=
  [.startSentence, .startToken 0, .chars "Anna".data, .endToken, .endSentence]

/-- An in-window state about to process a token start that forces a
decision-table lookup (token id 500, highlight elsewhere). -/
def c5ws : FilterState :=
  { window_start := 0, window_end := 200, in_window := true, decisions := [[]]
    highlight_start := 100, highlight_end := 100, highlight_tokens := [], entity_type := none
    user_cadidate_end := -1, token_id := -1, nested_depth := 0, last_sentence := false }

/-- An in-window state with focus span `(0, 10)`, empty decision table. -/
def c6ws : FilterState :=
  { showCandidateFilter 0 10 [] with in_window := true }

/-- The state `c6ws` after processing candidate start `(2, 5, "pf")`. -/
def c6wsAfter : FilterState :=
  { c6ws with nested_depth := c6ws.nested_depth + 1 }

/-- The element emitted by `c6ws` for candidate start `(2, 5, "pf")`. -/
def c6out : List OutEvent :=
  [.elemStart "span" [("class", "candidate highlight"), ("onClick", onIntervalClickStr 2 5)]]

/-- A filter built with one stored `public` decision on span `(3, 5)`. -/
def c7ws : FilterState :=
  { showCandidateFilter 0 10 [(3, 5, .public)] with in_window := true }

/-- The state `c7ws` after emitting the candidate element for `(3, 5)`. -/
def c7wsAfter : FilterState :=
  { c7ws with nested_depth := c7ws.nested_depth + 1 }

/-- An in-window state whose current token id equals `window_end`, with two
tracked open elements. -/
def fadeWitState : FilterState :=
  { window_start := 0, window_end := 7, in_window := true, decisions := []
    highlight_start := 3, highlight_end := 3, highlight_tokens := [], entity_type := none
    user_cadidate_end := -1, token_id := 7, nested_depth := 2, last_sentence := false }

/-- `fadeWitState` after the closing `token` event: depth forced to 0, fade
wrapper opened. -/
def fadeWitStateAfter : FilterState :=
  { fadeWitState with nested_depth := 0, in_window := false, last_sentence := true }

/-- The events `fadeWitState` emits on the closing `token` event. -/
def fadeWitOut : List OutEvent :=
  [.elemEnd "span", .elemEnd "span", .elemStart "span" [("class", "small fadeout")]]

/-- A fade-tail state (window left, fade wrapper open). -/
def c8FadeState : FilterState :=
  { fadeWitState with nested_depth := 0, in_window := false, last_sentence := true }

/-- A done state (window left, fade wrapper closed). -/
def c8DoneState : FilterState :=
  { fadeWitState with nested_depth := 0, in_window := false, last_sentence := false }

/-- A well-formed document whose second sentence contains a token with id
500, far past `window_end = 200`. -/
def c9doc : List InEvent :=
  [.startSentence, .startToken 0, .endToken, .startToken 500, .endToken, .endSentence]

/-- Nested confirmed candidate elements: outer `L1` around inner `L2`. -/
def c10doc : List FInEvent :=
  [.startNe (some "confirmed".data) (some "L1".data), .chars "ab".data,
   .startNe (some "confirmed".data) (some "L2".data), .chars "cd".data, .endNe,
   .chars "ef".data, .endNe]

/-- Balanced-tag check for feature-extractor event streams. -/
def fWfAux : Nat → List FInEvent → Bool
  | d, [] => d = 0
  | d, .startNe _ _ :: r => fWfAux (d + 1) r
  | d, .startOther _ :: r => fWfAux (d + 1) r
  | d, .chars _ :: r => fWfAux d r
  | d, .endNe :: r => match d with | 0 => false | d' + 1 => fWfAux d' r
  | d, .endOther _ :: r => match d with | 0 => false | d' + 1 => fWfAux d' r

def fWellFormedD (evs : List FInEvent) : Bool := fWfAux 0 evs

/-- A one-segment flat document: a confirmed candidate labelled `L` with
content `Anna`. -/
def c10seg : List FSeg :=
  [.ne "confirmed".data (some "L".data) "Anna".data]

/-- The feature table of a successful extractor run, `none` when it raised. -/
def runFeatureOut (evs : List FInEvent) : Option (List (Nat × Nat × Option (List Char))) :=
  match runFeature initFeature evs with
  | .ok s => some s.features
  | .error _ => none

/-- What one `characters` event adds to the Highlight Collector: the
whitespace-stripped text, provided the event is rendered at all, the current
token id lies in the focus span, and the stripped text is non-empty. -/
def collectFragment (s : FilterState) (content : List Char) : List (List Char) :=
  if (s.in_window ∨ s.last_sentence) ∧
      (s.highlight_start ≤ s.token_id ∧ s.token_id ≤ s.highlight_end) ∧
      0 < (pyStrip content).length
  then [pyStrip content] else []

/-!  Theorems. -/

/-- C1 (amended): for every render started by `show_candidate`, the window
bounds are `window_start = max(0, focus_start - margin)` and
`window_end = focus_start + margin` with margin 100 — the upper bound is
computed from the focus span's START offset, not its end offset. -/
theorem c1_window_bounds (ref_start ref_end : Int)
    (rows : List (Int × Int × AnnotationDecision)) :
    (showCandidateFilter ref_start ref_end rows).window_start = max 0 (ref_start - 100) ∧
    (showCandidateFilter ref_start ref_end rows).window_end = ref_start + 100 :=
  ⟨rfl, rfl⟩

/-- C1 (counterexample): with focus span `(0, 50)` and margin 100 the code
sets `window_end` to `focus_start + margin = 100`, not to
`focus_end + margin = 150` as the claim states. -/
theorem c1_window_end_cex :
    (showCandidateFilter 0 50 []).window_end = 0 + 100 ∧
    (showCandidateFilter 0 50 []).window_end ≠ 50 + 100 := by
  exact ⟨rfl, by decide⟩

/-- C2 (counterexample): `c2doc` is well-formed, yet the render with focus
span `(0, 4)` (token ids 0 and 5, so the focus end is no token id) emits one
element-open event and zero element-close events — the highlight span opened
at token 0 is never closed, and the tracked depth is 1, not 0, at the end of
the render. -/
theorem c2_balance_cex :
    wellFormedD c2doc = true ∧
    runOpenClose (showCandidateFilter 0 4 []) c2doc = some (1, 0) := by
  decide

/-- The first half of the in-window token-end handler keeps `token_id` and
`window_end` unchanged. -/
theorem endTokenPre_fields (s : FilterState) :
    (endTokenPre s).1.token_id = s.token_id ∧ (endTokenPre s).1.window_end = s.window_end := by
  unfold endTokenPre
  split
  · exact ⟨rfl, rfl⟩
  · split
    · exact ⟨rfl, rfl⟩
    · exact ⟨rfl, rfl⟩

/-- The first half of the in-window token-end handler keeps the depth
nonnegative. -/
theorem endTokenPre_depth (s : FilterState) (hd : 0 ≤ s.nested_depth) :
    0 ≤ (endTokenPre s).1.nested_depth := by
  unfold endTokenPre
  split
  · exact hd
  · split
    · dsimp only
      omega
    · exact hd

/-- The first half of the in-window token-end handler emits at most one
close event. -/
theorem endTokenPre_out (s : FilterState) :
    (endTokenPre s).2 = [] ∨ (endTokenPre s).2 = [OutEvent.elemEnd "span"] := by
  unfold endTokenPre
  split
  · exact Or.inr rfl
  · split
    · exact Or.inr rfl
    · exact Or.inl rfl

/-- Shape of the `endElement("token")` step that leaves the window: every
tracked open element is closed and the fade wrapper is opened. -/
theorem fadeEndTokenShape (s s' : FilterState) (out : List OutEvent)
    (hd : 0 ≤ s.nested_depth) (hw : s.in_window = true)
    (ht : s.token_id = s.window_end)
    (h : stepFilter s InEvent.endToken = .ok (s', out)) :
    s'.nested_depth = 0 ∧ s'.in_window = false ∧ s'.last_sentence = true ∧
    ∃ k, out = List.replicate k (OutEvent.elemEnd "span") ++
      [OutEvent.elemStart "span" [("class", "small fadeout")]] := by
  have hp := endTokenPre_fields s
  have hpd := endTokenPre_depth s hd
  have hpo := endTokenPre_out s
  have hcond : (endTokenPre s).1.token_id = (endTokenPre s).1.window_end := by
    rw [hp.1, hp.2]
    exact ht
  simp only [stepFilter, hw, if_true] at h
  simp only [endTokenStep, if_pos hcond] at h
  rw [Except.ok.injEq] at h
  have h1 := congrArg Prod.fst h
  have h2 := congrArg Prod.snd h
  dsimp only at h1 h2
  have hmax : max (endTokenPre s).1.nested_depth 0 = (endTokenPre s).1.nested_depth :=
    max_eq_left hpd
  refine ⟨?_, ?_, ?_, ?_⟩
  · rw [← h1]
    dsimp only
    rw [hmax]
    exact sub_self _
  · rw [← h1]
  · rw [← h1]
  · rcases hpo with hpo | hpo
    · refine ⟨(max (endTokenPre s).1.nested_depth 0).toNat, ?_⟩
      rw [← h2, hpo]
      simp
    · refine ⟨(max (endTokenPre s).1.nested_depth 0).toNat + 1, ?_⟩
      rw [← h2, hpo]
      simp [List.replicate_succ]

/-- C2 (amended): the tracked nesting depth is 0 immediately after the
force-close loop, i.e. the step in which a token with id `window_end` closes
in-window first emits one close event per tracked open element and only then
opens the fade-tail wrapper.  (Whole-render open/close balance fails, see the
counterexample.) -/
theorem c2_depth_zero_at_fade (s s' : FilterState) (out : List OutEvent)
    (hd : 0 ≤ s.nested_depth) (hw : s.in_window = true)
    (ht : s.token_id = s.window_end)
    (h : stepFilter s InEvent.endToken = .ok (s', out)) :
    s'.nested_depth = 0 ∧ s'.in_window = false ∧ s'.last_sentence = true ∧
    ∃ k, out = List.replicate k (OutEvent.elemEnd "span") ++
      [OutEvent.elemStart "span" [("class", "small fadeout")]] :=
  fadeEndTokenShape s s' out hd hw ht h

/-- C2 (witness): the amended statement applied to a concrete in-window
state of depth 2 whose token id equals `window_end`. -/
theorem c2_depth_zero_at_fade_witness :
    fadeWitStateAfter.nested_depth = 0 ∧ fadeWitStateAfter.in_window = false ∧
    fadeWitStateAfter.last_sentence = true ∧
    ∃ k, fadeWitOut = List.replicate k (OutEvent.elemEnd "span") ++
      [OutEvent.elemStart "span" [("class", "small fadeout")]] :=
  c2_depth_zero_at_fade fadeWitState fadeWitStateAfter fadeWitOut (by decide) rfl rfl rfl

/-- Splitting `n` copies of `a` on newlines yields the single original
piece. -/
theorem pySplitNL_replicate (n : Nat) :
    pySplitNL (List.replicate n 'a') = [List.replicate n 'a'] := by
  induction n with
  | zero => rfl
  | succ n ih => simp [List.replicate_succ, pySplitNL, ih]

/-- `charsOut` forwards newline-free text as a single text event. -/
theorem charsOut_replicate (n : Nat) :
    charsOut (List.replicate n 'a') = [OutEvent.chars (List.replicate n 'a')] := by
  simp [charsOut, pySplitNL_replicate]

/-- The render of `c3doc n`: one token span wrapping the full `n`-character
token text. -/
theorem c3_run (n : Nat) :
    runOut (showCandidateFilter 100 100 []) (c3doc n) =
      some ([OutEvent.elemStart "span" [("class", "token"), ("onClick", onTokenClickStr 0)]] ++
        charsOut (List.replicate n 'a') ++ [OutEvent.elemEnd "span"]) := rfl

/-- Output size of the render of `c3doc n`. -/
theorem c3_outSize (n : Nat) : c3outSizeN n = n + 2 := by
  unfold c3outSizeN
  rw [c3_run, charsOut_replicate]
  simp [outSize, outEventSize]
  omega

/-- Text length of `c3doc n`. -/
theorem c3_docLen (n : Nat) : docLen (c3doc n) = n := by
  simp [docLen, docChars, c3doc]

/-- C3 (counterexample): every `c3doc n` is a well-formed document, those
with `n > 201` are larger than the 201-offset window, yet no bound depending
on the margin alone dominates the render's output size — the whole text of
the single in-window token is emitted. -/
theorem c3_output_unbounded_cex :
    (∀ n, wellFormedD (c3doc n) = true) ∧
    ¬ ∃ B : Nat, ∀ n : Nat, 201 < docLen (c3doc n) → c3outSizeN n ≤ B := by
  constructor
  · intro n
    rfl
  · rintro ⟨B, hB⟩
    have h := hB (B + 202) (by rw [c3_docLen]; omega)
    rw [c3_outSize] at h
    omega

/-- C3 (amended): markup is emitted only while the filter is in-window or in
the fade tail — outside these phases every event is consumed without output
and without error; boundedness by the margin alone does not hold. -/
theorem c3_no_emission_outside (s : FilterState) (e : InEvent)
    (h1 : s.in_window = false) (h2 : s.last_sentence = false) :
    stepOut s e = some [] := by
  cases e <;> simp [stepOut, stepFilter, h1, h2]

/-- C3 (witness): the amended statement applied to a concrete
outside-window state and a text event. -/
theorem c3_no_emission_outside_witness :
    c3ws.in_window = false ∧ c3ws.last_sentence = false ∧
    stepOut c3ws (InEvent.chars "abc".data) = some [] :=
  ⟨rfl, rfl, c3_no_emission_outside c3ws (InEvent.chars "abc".data) rfl rfl⟩

/-- C4 (amended): each rendered text event extends the Highlight Collector by
exactly the whitespace-stripped fragment (dropped when it strips to nothing),
gated by the current token id lying in `[focus_start, focus_end]`; the text
is forwarded with newlines expanded to `br/` markers.  Literal
reproduction of the document substring fails, see the counterexample. -/
theorem c4_collector_strips (s : FilterState) (content : List Char) :
    stepFilter s (InEvent.chars content) =
      .ok ({ s with highlight_tokens := s.highlight_tokens ++ collectFragment s content },
        if s.in_window ∨ s.last_sentence then charsOut content else []) := by
  by_cases h1 : (s.in_window : Prop) ∨ (s.last_sentence : Prop)
  · by_cases h2 : s.highlight_start ≤ s.token_id ∧ s.token_id ≤ s.highlight_end
    · by_cases h3 : 0 < (pyStrip content).length
      · simp [stepFilter, collectFragment, h1, h2, h3]
      · simp [stepFilter, collectFragment, h1, h2, h3]
    · simp [stepFilter, collectFragment, h1, h2]
  · simp [stepFilter, collectFragment, h1]

/-- C4 (counterexample): rendering `Anna visit` (tokens at ids 0 and 5) with
focus span `(0, 9)` collects `["Anna", "visit"]` — concatenated `Annavisit`,
while the document's literal characters at offsets 0..9 are `Anna visit`:
the separating space is stripped away. -/
theorem c4_fidelity_cex :
    wellFormedD c4doc = true ∧
    runHighlights (showCandidateFilter 0 9 []) c4doc = some ["Anna".data, "visit".data] ∧
    ("Anna".data ++ "visit".data) ≠ ((docChars c4doc).drop 0).take (9 - 0 + 1) := by
  decide

/-- A failing Python list subscript always raises `IndexError`. -/
theorem pyIdx_error {α : Type} (l : List α) (i : Int) (m : String)
    (h : pyIdx l i = .error m) : m = "IndexError" := by
  simp only [pyIdx] at h
  split at h <;> split at h
  · split at h
    · exact Except.noConfusion h
    · exact (Except.error.inj h).symm
  · exact (Except.error.inj h).symm
  · split at h
    · exact Except.noConfusion h
    · exact (Except.error.inj h).symm
  · exact (Except.error.inj h).symm

theorem finishToken_no_error (s : FilterState) (cls : String) (m : String) :
    finishToken s cls ≠ .error m := by
  unfold finishToken
  split <;> simp

theorem startTokenStep_error (s : FilterState) (m : String)
    (h : startTokenStep s = .error m) :
    m = "IndexError" ∨ m = "AssertionError" := by
  unfold startTokenStep at h
  split at h
  · split at h
    · exact Or.inr (Except.error.inj h).symm
    · exact absurd h (finishToken_no_error _ _ _)
  · cases hp : pyIdx s.decisions (s.token_id - s.window_start) with
    | error m1 =>
      rw [hp] at h
      simp only at h
      exact Or.inl ((Except.error.inj h).symm.trans (pyIdx_error _ _ _ hp))
    | ok slot =>
      rw [hp] at h
      simp only at h
      rcases hs : scanDecisions s.token_id slot with _ | ⟨cls, newEnd⟩ <;> rw [hs] at h
      · exact absurd h (finishToken_no_error _ _ _)
      · exact absurd h (finishToken_no_error _ _ _)

theorem startCandidateStep_error (s : FilterState) (a b : Int) (hl : Bool) (m : String)
    (h : startCandidateStep s a b hl = .error m) : m = "IndexError" := by
  unfold startCandidateStep at h
  cases hp : pyIdx s.decisions (a - s.window_start) with
  | error m1 =>
    rw [hp] at h
    simp only at h
    exact (Except.error.inj h).symm.trans (pyIdx_error _ _ _ hp)
  | ok slot =>
    rw [hp] at h
    simp only at h
    exact Except.noConfusion h

theorem c5_error_classes (s : FilterState) (e : InEvent) (m : String)
    (h : stepFilter s e = .error m) :
    m = "IndexError" ∨ m = "AssertionError" := by
  cases e with
  | startSentence => exact absurd h (by simp [stepFilter])
  | startToken id =>
    simp only [stepFilter] at h
    split at h
    · exact startTokenStep_error _ _ h
    · exact Except.noConfusion h
  | startNe a b ty =>
    simp only [stepFilter] at h
    split at h
    · split at h <;>
        (split at h
         · split at h
           · rename_i m1 hts
             exact (Except.error.inj h) ▸ startTokenStep_error _ _ hts
           · split at h
             · rename_i m2 hcs
               exact (Except.error.inj h) ▸ Or.inl (startCandidateStep_error _ _ _ _ _ hcs)
             · exact Except.noConfusion h
         · exact Or.inl (startCandidateStep_error _ _ _ _ _ h))
    · exact Except.noConfusion h
  | startOther n => exact absurd h (by simp [stepFilter])
  | chars c =>
    simp only [stepFilter] at h
    split at h <;> exact Except.noConfusion h
  | endNe =>
    simp only [stepFilter] at h
    split at h <;> exact Except.noConfusion h
  | endToken =>
    simp only [stepFilter] at h
    split at h <;> exact Except.noConfusion h
  | endSentence =>
    simp only [stepFilter] at h
    split at h
    · exact Except.noConfusion h
    · split at h <;> exact Except.noConfusion h
  | endOther n =>
    simp only [stepFilter] at h
    exact Except.noConfusion h

/-- C5 (witness): the amended statement applied to a concrete failing step —
an in-window token with id 500 against a one-slot decision table. -/
theorem c5_error_classes_witness :
    stepFilter c5ws (InEvent.startToken 500) = .error "IndexError" ∧
    ("IndexError" = "IndexError" ∨ "IndexError" = "AssertionError") :=
  ⟨rfl, c5_error_classes c5ws (InEvent.startToken 500) "IndexError" rfl⟩

/-- C5 (counterexample): `c5doc` is well-formed and its token ids never hit
the focus start 50, yet the render completes without any error and emits a
three-event fragment — no `FocusNotFoundError` is raised and output is
produced. -/
theorem c5_no_focus_error_cex :
    wellFormedD c5doc = true ∧
    (docTokenIds c5doc).contains 50 = false ∧
    (runOut (showCandidateFilter 50 50 []) c5doc).map List.length = some 3 := by
  decide

/-- `finishToken` leaves `entity_type` unchanged. -/
theorem finishToken_entity (s : FilterState) (cls : String) (s1 : FilterState)
    (o : List OutEvent) (h : finishToken s cls = .ok (s1, o)) :
    s1.entity_type = s.entity_type := by
  unfold finishToken at h
  split at h
  · rw [Except.ok.injEq, Prod.mk.injEq] at h
    rw [← h.1]
  · rw [Except.ok.injEq, Prod.mk.injEq] at h
    rw [← h.1]

/-- `_startToken` leaves `entity_type` unchanged. -/
theorem startTokenStep_entity (s : FilterState) (s1 : FilterState) (o : List OutEvent)
    (h : startTokenStep s = .ok (s1, o)) : s1.entity_type = s.entity_type := by
  unfold startTokenStep at h
  split at h
  · split at h
    · exact Except.noConfusion h
    · exact (finishToken_entity _ _ _ _ h).trans rfl
  · split at h
    · rename_i m1 hp
      exact Except.noConfusion h
    · split at h
      · exact (finishToken_entity _ _ _ _ h).trans rfl
      · exact (finishToken_entity _ _ _ _ h).trans rfl

/-- The element `_startCandidate` emits: one `span` whose class is the
decision-derived base, suffixed with the highlight marking exactly when the
`is_highlighted` flag is set. -/
theorem startCandidateStep_shape (s : FilterState) (a b : Int) (hl : Bool)
    (s1 : FilterState) (out : List OutEvent)
    (h : startCandidateStep s a b hl = .ok (s1, out)) :
    ∃ base,
      (base = "candidate" ∨ base = "candidate candidate-public" ∨
        base = "candidate candidate-secret") ∧
      out = [OutEvent.elemStart "span"
        [("class", if hl then base ++ " highlight" else base),
         ("onClick", onIntervalClickStr a b)]] ∧
      s1 = { s with nested_depth := s.nested_depth + 1 } := by
  unfold startCandidateStep at h
  cases hp : pyIdx s.decisions (a - s.window_start) with
  | error m1 =>
    rw [hp] at h
    exact Except.noConfusion h
  | ok slot =>
    rw [hp] at h
    simp only at h
    rcases hd : dictGet slot (b - a) with _ | d
    · rw [hd] at h
      rw [Except.ok.injEq, Prod.mk.injEq] at h
      exact ⟨"candidate", Or.inl rfl, h.2.symm, h.1.symm⟩
    · cases d with
      | public =>
        rw [hd] at h
        rw [Except.ok.injEq, Prod.mk.injEq] at h
        exact ⟨"candidate candidate-public", Or.inr (Or.inl rfl), h.2.symm, h.1.symm⟩
      | secret =>
        rw [hd] at h
        rw [Except.ok.injEq, Prod.mk.injEq] at h
        exact ⟨"candidate candidate-secret", Or.inr (Or.inr rfl), h.2.symm, h.1.symm⟩
      | rule =>
        rw [hd] at h
        rw [Except.ok.injEq, Prod.mk.injEq] at h
        exact ⟨"candidate", Or.inl rfl, h.2.symm, h.1.symm⟩
      | nested =>
        rw [hd] at h
        rw [Except.ok.injEq, Prod.mk.injEq] at h
        exact ⟨"candidate", Or.inl rfl, h.2.symm, h.1.symm⟩

/-- C6 (amended): an in-window candidate start `(start, end, type)` emits a
candidate element carrying the highlight marking if and only if the span is
CONTAINED in the focus span (`focus_start ≤ start` and `end ≤ focus_end`),
while the exact-match entity type is recorded precisely when
`(start, end) = (focus_start, focus_end)`. -/
theorem c6_highlight_containment (s : FilterState) (start end_ : Int) (ty : String)
    (s' : FilterState) (out : List OutEvent)
    (hw : s.in_window = true)
    (h : stepFilter s (InEvent.startNe start end_ ty) = .ok (s', out)) :
    s'.entity_type =
      (if s.highlight_start = start ∧ end_ = s.highlight_end then some ty
        else s.entity_type) ∧
    ∃ front base,
      (base = "candidate" ∨ base = "candidate candidate-public" ∨
        base = "candidate candidate-secret") ∧
      out = front ++ [OutEvent.elemStart "span"
        [("class",
          if s.highlight_start ≤ start ∧ end_ ≤ s.highlight_end then base ++ " highlight"
          else base),
         ("onClick", onIntervalClickStr start end_)]] := by
  simp only [stepFilter, hw, if_true] at h
  split at h
  · rename_i hent
    split at h
    · rename_i hfix
      split at h
      · exact Except.noConfusion h
      · rename_i s1 out1 hts
        split at h
        · exact Except.noConfusion h
        · rename_i s2 out2 hcs
          rw [Except.ok.injEq, Prod.mk.injEq] at h
          obtain ⟨base, hbase, hout2, hstate⟩ := startCandidateStep_shape _ start end_ _ _ _ hcs
          refine ⟨?_, out1, base, hbase, ?_⟩
          · rw [if_pos hent, ← h.1, hstate]
            have he := startTokenStep_entity _ _ _ hts
            exact he
          · rw [← h.2, hout2]
            simp only [decide_eq_true_eq]
    · rename_i hfix
      obtain ⟨base, hbase, hout, hstate⟩ := startCandidateStep_shape _ start end_ _ _ _ h
      refine ⟨?_, [], base, hbase, ?_⟩
      · rw [if_pos hent, hstate]
      · rw [hout]
        simp only [decide_eq_true_eq, List.nil_append]
  · rename_i hent
    split at h
    · rename_i hfix
      split at h
      · exact Except.noConfusion h
      · rename_i s1 out1 hts
        split at h
        · exact Except.noConfusion h
        · rename_i s2 out2 hcs
          rw [Except.ok.injEq, Prod.mk.injEq] at h
          obtain ⟨base, hbase, hout2, hstate⟩ := startCandidateStep_shape _ start end_ _ _ _ hcs
          refine ⟨?_, out1, base, hbase, ?_⟩
          · rw [if_neg hent, ← h.1, hstate]
            have he := startTokenStep_entity _ _ _ hts
            exact he
          · rw [← h.2, hout2]
            simp only [decide_eq_true_eq]
    · rename_i hfix
      obtain ⟨base, hbase, hout, hstate⟩ := startCandidateStep_shape _ start end_ _ _ _ h
      refine ⟨?_, [], base, hbase, ?_⟩
      · rw [if_neg hent, hstate]
      · rw [hout]
        simp only [decide_eq_true_eq, List.nil_append]

/-- C6 (witness): the amended statement applied to a concrete in-window
state with focus span `(0, 10)` and candidate `(2, 5)`. -/
theorem c6_highlight_containment_witness :
    c6wsAfter.entity_type =
      (if c6ws.highlight_start = 2 ∧ (5 : Int) = c6ws.highlight_end then some "pf"
        else c6ws.entity_type) ∧
    ∃ front base,
      (base = "candidate" ∨ base = "candidate candidate-public" ∨
        base = "candidate candidate-secret") ∧
      c6out = front ++ [OutEvent.elemStart "span"
        [("class",
          if c6ws.highlight_start ≤ 2 ∧ (5 : Int) ≤ c6ws.highlight_end then base ++ " highlight"
          else base),
         ("onClick", onIntervalClickStr 2 5)]] :=
  c6_highlight_containment c6ws 2 5 "pf" c6wsAfter c6out rfl rfl

/-- C6 (counterexample): candidate `(2, 5)` differs from the focus span
`(0, 10)` yet its element carries the `highlight` marking — the marking is
applied on containment, not on exact equality as the claim states. -/
theorem c6_exact_match_cex :
    stepFilter c6ws (InEvent.startNe 2 5 "pf") = .ok (c6wsAfter, c6out) ∧
    ¬((2 : Int) = c6ws.highlight_start ∧ (5 : Int) = c6ws.highlight_end) ∧
    c6out = [OutEvent.elemStart "span"
      [("class", "candidate highlight"), ("onClick", onIntervalClickStr 2 5)]] :=
  ⟨rfl, by decide, rfl⟩

/-- C7 (confirmed): an in-window candidate start looks up
`DecisionIndex[start][end-start]` and styles the element
`candidate candidate-public` for a stored `public` decision,
`candidate candidate-secret` for `secret`, and plain `candidate` in every
other case — including an absent entry (undecided). -/
theorem c7_decision_styling (s : FilterState) (ref_start ref_end : Int) (hl : Bool)
    (slot : List (Int × AnnotationDecision)) (s' : FilterState) (out : List OutEvent)
    (hslot : pyIdx s.decisions (ref_start - s.window_start) = .ok slot)
    (h : startCandidateStep s ref_start ref_end hl = .ok (s', out)) :
    (dictGet slot (ref_end - ref_start) = some AnnotationDecision.public →
      out = [OutEvent.elemStart "span"
        [("class",
          if hl then "candidate candidate-public" ++ " highlight"
          else "candidate candidate-public"),
         ("onClick", onIntervalClickStr ref_start ref_end)]]) ∧
    (dictGet slot (ref_end - ref_start) = some AnnotationDecision.secret →
      out = [OutEvent.elemStart "span"
        [("class",
          if hl then "candidate candidate-secret" ++ " highlight"
          else "candidate candidate-secret"),
         ("onClick", onIntervalClickStr ref_start ref_end)]]) ∧
    (∀ d, dictGet slot (ref_end - ref_start) = d →
      d ≠ some AnnotationDecision.public → d ≠ some AnnotationDecision.secret →
      out = [OutEvent.elemStart "span"
        [("class", if hl then "candidate" ++ " highlight" else "candidate"),
         ("onClick", onIntervalClickStr ref_start ref_end)]]) := by
  unfold startCandidateStep at h
  rw [hslot] at h
  simp only at h
  refine ⟨?_, ?_, ?_⟩
  · intro hd
    rw [hd] at h
    rw [Except.ok.injEq, Prod.mk.injEq] at h
    exact h.2.symm
  · intro hd
    rw [hd] at h
    rw [Except.ok.injEq, Prod.mk.injEq] at h
    exact h.2.symm
  · intro d hd hnp hns
    rw [hd] at h
    rcases d with _ | dec
    · rw [Except.ok.injEq, Prod.mk.injEq] at h
      exact h.2.symm
    · cases dec with
      | public => exact absurd rfl hnp
      | secret => exact absurd rfl hns
      | rule =>
        rw [Except.ok.injEq, Prod.mk.injEq] at h
        exact h.2.symm
      | nested =>
        rw [Except.ok.injEq, Prod.mk.injEq] at h
        exact h.2.symm

/-- C7 (witness): the theorem applied to a concrete filter holding one
stored `public` decision for span `(3, 5)`. -/
theorem c7_decision_styling_witness :
    pyIdx c7ws.decisions (3 - c7ws.window_start) = .ok [(2, AnnotationDecision.public)] ∧
    startCandidateStep c7ws 3 5 false =
      .ok (c7wsAfter, [OutEvent.elemStart "span"
        [("class", "candidate candidate-public"), ("onClick", onIntervalClickStr 3 5)]]) ∧
    [OutEvent.elemStart "span"
        [("class", "candidate candidate-public"), ("onClick", onIntervalClickStr 3 5)]] =
      [OutEvent.elemStart "span"
        [("class",
          if false then "candidate candidate-public" ++ " highlight"
          else "candidate candidate-public"),
         ("onClick", onIntervalClickStr 3 5)]] :=
  ⟨rfl, rfl,
    (c7_decision_styling c7ws 3 5 false [(2, AnnotationDecision.public)] c7wsAfter
      [OutEvent.elemStart "span"
        [("class", "candidate candidate-public"), ("onClick", onIntervalClickStr 3 5)]]
      rfl rfl).1 rfl⟩

/-- The fade-close step: while in the fade tail, a closing `sentence` emits
exactly the wrapper close and ends the fade. -/
theorem fadeCloseShape (s s' : FilterState) (out : List OutEvent)
    (h1 : s.in_window = false) (h2 : s.last_sentence = true)
    (h : stepFilter s InEvent.endSentence = .ok (s', out)) :
    out = [OutEvent.elemEnd "span"] ∧ s'.last_sentence = false ∧ s'.in_window = false := by
  simp only [stepFilter, h1, h2, if_true, Bool.false_eq_true, if_false] at h
  rw [Except.ok.injEq, Prod.mk.injEq] at h
  obtain ⟨hA, hB⟩ := h
  subst hA
  exact ⟨hB.symm, rfl, rfl⟩

/-- Once the window has been left for good (`window_end ≤ token_id`, no fade
pending), any event whose token id also lies past the window is consumed
silently and preserves that configuration. -/
theorem doneQuietStep (s : FilterState) (e : InEvent)
    (h1 : s.in_window = false) (h2 : s.last_sentence = false)
    (h3 : s.window_end ≤ s.token_id)
    (hid : ∀ id, e = InEvent.startToken id → s.window_end ≤ id) :
    ∃ s1, stepFilter s e = .ok (s1, []) ∧ s1.in_window = false ∧
      s1.last_sentence = false ∧ s1.window_end ≤ s1.token_id ∧
      s1.window_end = s.window_end := by
  cases e with
  | startSentence =>
    refine ⟨_, rfl, ?_, h2, h3, rfl⟩
    show decide (s.window_start ≤ s.token_id + 1 ∧ s.token_id + 1 ≤ s.window_end) = false
    rw [decide_eq_false_iff_not]
    rintro ⟨-, hB⟩
    omega
  | startToken id =>
    refine ⟨{ s with token_id := id }, ?_, h1, h2, hid id rfl, rfl⟩
    simp [stepFilter, h1]
  | startNe a b ty =>
    exact ⟨s, by simp [stepFilter, h1], h1, h2, h3, rfl⟩
  | startOther n => exact ⟨s, rfl, h1, h2, h3, rfl⟩
  | chars c =>
    exact ⟨s, by simp [stepFilter, h1, h2], h1, h2, h3, rfl⟩
  | endSentence =>
    exact ⟨s, by simp [stepFilter, h1, h2], h1, h2, h3, rfl⟩
  | endNe =>
    exact ⟨s, by simp [stepFilter, h1], h1, h2, h3, rfl⟩
  | endToken =>
    exact ⟨s, by simp [stepFilter, h1], h1, h2, h3, rfl⟩
  | endOther n => exact ⟨s, rfl, h1, h2, h3, rfl⟩

/-- Once the window has been left for good, a whole remaining stream whose
token ids lie past the window is consumed with no output at all. -/
theorem doneQuietRun (s : FilterState) (evs : List InEvent)
    (h1 : s.in_window = false) (h2 : s.last_sentence = false)
    (h3 : s.window_end ≤ s.token_id)
    (hids : ∀ id, InEvent.startToken id ∈ evs → s.window_end ≤ id) :
    ∃ s', runFilter s evs = .ok (s', []) := by
  suffices hgen : ∀ (l : List InEvent) (st : FilterState), st.in_window = false →
      st.last_sentence = false → st.window_end ≤ st.token_id →
      (∀ id, InEvent.startToken id ∈ l → st.window_end ≤ id) →
      ∃ s', runFilter st l = .ok (s', []) by
    exact hgen evs s h1 h2 h3 hids
  intro l
  induction l with
  | nil => exact fun st _ _ _ _ => ⟨st, rfl⟩
  | cons e rest ih =>
    intro st k1 k2 k3 kids
    obtain ⟨s1, hstep, i1, i2, i3, i4⟩ :=
      doneQuietStep st e k1 k2 k3 (fun id he => kids id (by rw [he]; exact List.mem_cons_self _ _))
    obtain ⟨s', hrun⟩ := ih s1 i1 i2 i3
      (fun id hm => i4 ▸ kids id (List.mem_cons_of_mem _ hm))
    refine ⟨s', ?_⟩
    simp [runFilter, hstep, hrun]

/-- C8 (confirmed): (a) when the token whose id equals `window_end` closes
in-window, all tracked open elements are force-closed (depth reaches 0) and a
single fade wrapper is opened; (b) the wrapper is closed by the next closing
`sentence`, ending the fade; (c) afterwards, provided the remaining token ids
lie past the window (token ids are starting offsets, monotone in a well-formed
document), no markup of any kind is emitted. -/
theorem c8_fade_transition :
    (∀ s s' out, 0 ≤ s.nested_depth → s.in_window = true → s.token_id = s.window_end →
      stepFilter s InEvent.endToken = .ok (s', out) →
      s'.nested_depth = 0 ∧ s'.in_window = false ∧ s'.last_sentence = true ∧
      ∃ k, out = List.replicate k (OutEvent.elemEnd "span") ++
        [OutEvent.elemStart "span" [("class", "small fadeout")]]) ∧
    (∀ s s' out, s.in_window = false → s.last_sentence = true →
      stepFilter s InEvent.endSentence = .ok (s', out) →
      out = [OutEvent.elemEnd "span"] ∧ s'.last_sentence = false ∧ s'.in_window = false) ∧
    (∀ s evs, s.in_window = false → s.last_sentence = false →
      s.window_end ≤ s.token_id →
      (∀ id, InEvent.startToken id ∈ evs → s.window_end ≤ id) →
      ∃ s', runFilter s evs = .ok (s', [])) :=
  ⟨fun s s' out hd hw ht h => fadeEndTokenShape s s' out hd hw ht h,
   fun s s' out h1 h2 h => fadeCloseShape s s' out h1 h2 h,
   fun s evs h1 h2 h3 hids => doneQuietRun s evs h1 h2 h3 hids⟩

/-- C8 (witness): the three phases exercised on concrete states — the
force-close at depth 2, the fade close, and a silent tail sentence with a
token at id 400 past `window_end = 7`. -/
theorem c8_fade_transition_witness :
    (fadeWitStateAfter.nested_depth = 0 ∧ fadeWitStateAfter.in_window = false ∧
      fadeWitStateAfter.last_sentence = true ∧
      ∃ k, fadeWitOut = List.replicate k (OutEvent.elemEnd "span") ++
        [OutEvent.elemStart "span" [("class", "small fadeout")]]) ∧
    ([OutEvent.elemEnd "span"] = [OutEvent.elemEnd "span"] ∧
      c8DoneState.last_sentence = false ∧ c8DoneState.in_window = false) ∧
    (∃ s', runFilter c8DoneState
      [InEvent.startSentence, InEvent.startToken 400, InEvent.chars "tail".data,
       InEvent.endToken, InEvent.endSentence] = .ok (s', [])) := by
  refine ⟨c8_fade_transition.1 fadeWitState fadeWitStateAfter fadeWitOut (by decide) rfl rfl rfl,
    c8_fade_transition.2.1 c8FadeState c8DoneState [OutEvent.elemEnd "span"] rfl rfl rfl,
    c8_fade_transition.2.2 c8DoneState _ rfl rfl (by decide) ?_⟩
  intro id hm
  simp at hm
  subst hm
  decide

/-- Cell update preserves list length. -/
theorem listModify_length {α : Type} (l : List α) (i : Nat) (f : α → α) :
    (listModify l i f).length = l.length := by
  induction l generalizing i with
  | nil => rfl
  | cons a rest ih =>
    cases i with
    | zero => simp [listModify]
    | succ n => simp [listModify, ih]

/-- The decision table has exactly `window_end - window_start + 1` slots. -/
theorem getDecisions_length (rows : List (Int × Int × AnnotationDecision))
    (ws we : Int) : (getDecisions rows ws we).length = (we - ws + 1).toNat := by
  unfold getDecisions
  suffices hgen : ∀ (rs : List (Int × Int × AnnotationDecision))
      (acc : List (List (Int × AnnotationDecision))),
      (rs.foldl (fun table row =>
        if ws ≤ row.1 ∧ row.1 ≤ we then
          listModify table (row.1 - ws).toNat
            (fun slot => dictSet slot (row.2.1 - row.1) row.2.2)
        else table) acc).length = acc.length by
    rw [hgen]
    exact List.length_replicate _ _
  intro rs
  induction rs with
  | nil => exact fun acc => rfl
  | cons r rest ih =>
    intro acc
    rw [List.foldl_cons, ih]
    split
    · exact listModify_length _ _ _
    · rfl

/-- C9 (amended): a decision-table access at offset `off` (index
`off - window_start`) is in bounds precisely for `off` inside
`[window_start, window_end]`; for `off` past `window_end` — which the
renderer does reach, see the counterexample — the subscript raises
`IndexError`. -/
theorem c9_lookup_bounds (rows : List (Int × Int × AnnotationDecision))
    (ws we off : Int) (hwe : ws ≤ we) :
    ((ws ≤ off ∧ off ≤ we) →
      ∃ slot, pyIdx (getDecisions rows ws we) (off - ws) = .ok slot) ∧
    (we < off → pyIdx (getDecisions rows ws we) (off - ws) = .error "IndexError") := by
  have hL := getDecisions_length rows ws we
  constructor
  · rintro ⟨hA, hB⟩
    have hnn : ¬((off - ws : Int) < 0) := by omega
    have hlt : (off - ws).toNat < (getDecisions rows ws we).length := by
      rw [hL]
      omega
    refine ⟨(getDecisions rows ws we).get ⟨(off - ws).toNat, hlt⟩, ?_⟩
    simp only [pyIdx]
    rw [if_neg hnn, if_pos (show (0 : Int) ≤ off - ws by omega), List.get?_eq_get hlt]
  · intro hoff
    have hnn : ¬((off - ws : Int) < 0) := by omega
    have hnone : (getDecisions rows ws we).get? (off - ws).toNat = none := by
      refine List.get?_eq_none.mpr ?_
      rw [hL]
      omega
    simp only [pyIdx]
    rw [if_neg hnn, if_pos (show (0 : Int) ≤ off - ws by omega), hnone]

/-- C9 (witness): the amended statement on an empty three-slot table — offset
1 is served, offset 5 raises. -/
theorem c9_lookup_bounds_witness :
    (∃ slot, pyIdx (getDecisions [] 0 2) (1 - 0) = .ok slot) ∧
    pyIdx (getDecisions [] 0 2) (5 - 0) = .error "IndexError" :=
  ⟨(c9_lookup_bounds [] 0 2 1 (by decide)).1 (by decide),
   (c9_lookup_bounds [] 0 2 5 (by decide)).2 (by decide)⟩

/-- C9 (counterexample): in the well-formed `c9doc` a token with id 500 is
processed while in-window (the sentence entered the window at token 0), the
decision table is indexed at position `500 - window_start` outside the
201-slot table, and the render aborts with `IndexError` — refuting the claim
that positions outside `[window_start, window_end]` are never queried. -/
theorem c9_out_of_window_query_cex :
    wellFormedD c9doc = true ∧
    runErr (showCandidateFilter 100 100 []) c9doc = some "IndexError" := by
  decide

/-- Running the feature extractor over a flat document from a clean state:
one row per confirmed element, text passed through, provided every confirmed
element encloses at least one character. -/
theorem c10_run_flat (segs : List FSeg) :
    ∀ (s : FeatureState), s.current = none →
      (∀ st lb c, FSeg.ne st lb c ∈ segs → pyStartswithConfirmed st = true → c ≠ []) →
      runFeature s (flattenF segs) =
        .ok { possition := s.possition + (segs.map fsegLen).sum,
              current := none,
              features := s.features ++ fTableSpec s.possition segs,
              txt := s.txt ++ fTextSpec segs } := by
  induction segs with
  | nil =>
    intro s hcur hne
    cases s with
    | mk p cur fs t =>
      dsimp at hcur
      subst hcur
      simp [flattenF, runFeature, fTableSpec, fTextSpec]
  | cons seg rest ih =>
    intro s hcur hne
    have hne' : ∀ st lb c, FSeg.ne st lb c ∈ rest → pyStartswithConfirmed st = true → c ≠ [] :=
      fun st lb c hm hc => hne st lb c (List.mem_cons_of_mem _ hm) hc
    cases seg with
    | text c =>
      have e1 : featureStep s (FInEvent.chars c) =
          .ok { s with possition := s.possition + c.length, txt := s.txt ++ c } := rfl
      simp only [flattenF, runFeature, e1]
      rw [ih { s with possition := s.possition + c.length, txt := s.txt ++ c } hcur hne']
      simp [fTableSpec, fTextSpec, fsegLen, Nat.add_assoc, List.append_assoc]
    | ne st lb c =>
      by_cases hconf : pyStartswithConfirmed st = true
      · have hcne : c ≠ [] := hne st lb c (List.mem_cons_self _ _) hconf
        have hlen : 0 < c.length := List.length_pos.mpr hcne
        have e1 : featureStep s (FInEvent.startNe (some st) lb) =
            .ok { s with current := some (s.possition, lb) } := by
          simp [featureStep, hconf]
        have e2 : featureStep { s with current := some (s.possition, lb) } (FInEvent.chars c) =
            .ok { s with current := some (s.possition, lb), possition := s.possition + c.length, txt := s.txt ++ c } := rfl
        have e3 : featureStep { s with current := some (s.possition, lb), possition := s.possition + c.length, txt := s.txt ++ c } FInEvent.endNe =
            .ok { s with current := none, possition := s.possition + c.length, txt := s.txt ++ c, features := s.features ++ [(s.possition, s.possition + c.length, lb)] } := by
          simp only [featureStep]
          rw [if_pos (show s.possition + c.length > s.possition by omega)]
        simp only [flattenF, runFeature, e1, e2, e3]
        rw [ih { s with current := none, possition := s.possition + c.length, txt := s.txt ++ c, features := s.features ++ [(s.possition, s.possition + c.length, lb)] } rfl hne']
        simp [fTableSpec, fTextSpec, fsegLen, hconf, Nat.add_assoc, List.append_assoc]
      · have hconf' : pyStartswithConfirmed st = false := by
          revert hconf
          cases pyStartswithConfirmed st <;> simp
        have e1 : featureStep s (FInEvent.startNe (some st) lb) = .ok s := by
          simp [featureStep, hconf']
        have e2 : featureStep s (FInEvent.chars c) =
            .ok { s with possition := s.possition + c.length, txt := s.txt ++ c } := rfl
        have e3 : featureStep { s with possition := s.possition + c.length, txt := s.txt ++ c } FInEvent.endNe =
            .ok { s with possition := s.possition + c.length, txt := s.txt ++ c } := by
          simp [featureStep, hcur]
        simp only [flattenF, runFeature, e1, e2, e3]
        rw [ih { s with possition := s.possition + c.length, txt := s.txt ++ c } hcur hne']
        simp [fTableSpec, fTextSpec, fsegLen, hconf', Nat.add_assoc, List.append_assoc]

/-- Every row of the expected table points at its element's text: offsets are
cumulative and the text-stream slice at `[start, end)` is the element's
content. -/
theorem fTableSpec_mem (segs : List FSeg) :
    ∀ (off a b : Nat) (lb : Option (List Char)),
      (a, b, lb) ∈ fTableSpec off segs →
      ∃ st c, FSeg.ne st lb c ∈ segs ∧ pyStartswithConfirmed st = true ∧
        off ≤ a ∧ b = a + c.length ∧
        ((fTextSpec segs).drop (a - off)).take (b - a) = c := by
  induction segs with
  | nil =>
    intro off a b lb hm
    simp [fTableSpec] at hm
  | cons seg rest ih =>
    intro off a b lb hm
    cases seg with
    | text c =>
      simp only [fTableSpec] at hm
      obtain ⟨st, c', hmem, hconf, hle, hb, hslice⟩ := ih (off + c.length) a b lb hm
      refine ⟨st, c', List.mem_cons_of_mem _ hmem, hconf, by omega, hb, ?_⟩
      show ((c ++ fTextSpec rest).drop (a - off)).take (b - a) = c'
      rw [show a - off = c.length + (a - (off + c.length)) by omega, List.drop_append]
      exact hslice
    | ne st0 lb0 c =>
      simp only [fTableSpec] at hm
      rw [List.mem_append] at hm
      rcases hm with hm | hm
      · by_cases hconf : pyStartswithConfirmed st0 = true
        · rw [if_pos hconf] at hm
          simp only [List.mem_singleton, Prod.mk.injEq] at hm
          obtain ⟨ha, hb, hlb⟩ := hm
          refine ⟨st0, c, ?_, hconf, by omega, by omega, ?_⟩
          · rw [hlb]
            exact List.mem_cons_self _ _
          · show ((c ++ fTextSpec rest).drop (a - off)).take (b - a) = c
            rw [ha, hb, show off - off = 0 by omega,
              show off + c.length - off = c.length by omega, List.drop_zero]
            exact List.take_left c (fTextSpec rest)
        · rw [if_neg hconf] at hm
          simp at hm
      · obtain ⟨st, c', hmem, hconf, hle, hb, hslice⟩ := ih (off + c.length) a b lb hm
        refine ⟨st, c', List.mem_cons_of_mem _ hmem, hconf, by omega, hb, ?_⟩
        show ((c ++ fTextSpec rest).drop (a - off)).take (b - a) = c'
        rw [show a - off = c.length + (a - (off + c.length)) by omega, List.drop_append]
        exact hslice

/-- C10 (amended): over a FLAT document in which every confirmed candidate
element encloses at least one character, the extractor emits exactly one
`(start, end, label)` row per confirmed element, streams the text through
unchanged, and each row's offsets slice the text stream to exactly that
element's content.  (Nested candidate elements break the per-element row
guarantee, see the counterexample.) -/
theorem c10_flat_feature_table (segs : List FSeg)
    (hne : ∀ st lb c, FSeg.ne st lb c ∈ segs → pyStartswithConfirmed st = true → c ≠ []) :
    runFeature initFeature (flattenF segs) =
      .ok { possition := (segs.map fsegLen).sum, current := none,
            features := fTableSpec 0 segs, txt := fTextSpec segs } ∧
    ∀ a b lb, (a, b, lb) ∈ fTableSpec 0 segs →
      ∃ st c, FSeg.ne st lb c ∈ segs ∧ pyStartswithConfirmed st = true ∧
        b = a + c.length ∧ ((fTextSpec segs).drop a).take (b - a) = c := by
  constructor
  · have h := c10_run_flat segs initFeature rfl hne
    simpa [initFeature] using h
  · intro a b lb hm
    obtain ⟨st, c, h1, h2, h3, h4, h5⟩ := fTableSpec_mem segs 0 a b lb hm
    refine ⟨st, c, h1, h2, h4, ?_⟩
    simpa using h5

/-- C10 (witness): the amended statement on the one-element flat document
`c10seg` (a confirmed `Anna` labelled `L`). -/
theorem c10_flat_feature_table_witness :
    (runFeature initFeature (flattenF c10seg) =
      .ok { possition := (c10seg.map fsegLen).sum, current := none,
            features := fTableSpec 0 c10seg, txt := fTextSpec c10seg } ∧
    ∀ a b lb, (a, b, lb) ∈ fTableSpec 0 c10seg →
      ∃ st c, FSeg.ne st lb c ∈ c10seg ∧ pyStartswithConfirmed st = true ∧
        b = a + c.length ∧ ((fTextSpec c10seg).drop a).take (b - a) = c) :=
  c10_flat_feature_table c10seg (by
    intro st lb c hm hconf
    simp only [c10seg, List.mem_singleton, FSeg.ne.injEq] at hm
    obtain ⟨h1, h2, h3⟩ := hm
    subst h3
    decide)

/-- C10 (counterexample): with nested confirmed elements (outer `L1` with 6
content characters around inner `L2`), the extractor emits only the row
`(2, 4, L2)` — the outer confirmed element, although it encloses content,
gets NO row: the inner element's end event consumed and cleared the pending
feature. -/
theorem c10_nested_cex :
    fWellFormedD c10doc = true ∧
    runFeatureOut c10doc = some [(2, 4, some "L2".data)] ∧
    ([(2, 4, some "L2".data)] : List (Nat × Nat × Option (List Char))).all
      (fun r => decide (r.1 ≠ 0)) = true := by
  decide

end PseudoAnalyzer
